import Mathlib

/-!
Verification of the coordinate-mapping and heatmap-rendering core of an
NBA shot-prediction web application.

JavaScript `number` inputs are embedded as rationals (`ℚ`); the square
root and arctangent computed by `Math.sqrt` / `Math.atan2` are embedded
as real-valued functions (`Real.sqrt`, `Complex.arg`).  `Math.round` is
round-half-toward-positive-infinity, i.e. `⌊x + 1/2⌋`.
-/

/-- Pixel box size paired with real-world court extents
(`courtCoordinates.ts`, interface `CourtDimensions`). -/
structure CourtDimensions where
  width : ℚ
  height : ℚ
  courtLengthFeet : ℚ
  courtWidthFeet : ℚ
deriving DecidableEq

/-- A screen/SVG pixel position (`courtCoordinates.ts`, interface `Position`). -/
structure Position where
  x : ℚ
  y : ℚ
deriving DecidableEq

/-- A court-space position (`courtCoordinates.ts`, interface `CourtPosition`). -/
structure CourtPosition where
  x : ℚ
  y : ℚ
deriving DecidableEq

/-- JavaScript `Math.round`: rounds half toward positive infinity. -/
def jsRound (q : ℚ) : ℚ := ((⌊q + 1/2⌋ : ℤ) : ℚ)

/-- `screenToCourtCoordinates` from `courtCoordinates.ts`: converts a screen
position to the NBA analytics coordinate convention. -/
def screenToCourtCoordinates (screenPos : Position) (dimensions : CourtDimensions) :
    CourtPosition :=
  let normalizedX := screenPos.x / dimensions.width
  let normalizedY := screenPos.y / dimensions.height
  let nbaX := (normalizedY - 0.5) * 500
  let nbaY := 50 + normalizedX * 350
  ⟨jsRound nbaX, jsRound nbaY⟩

/-- `courtToScreenCoordinates` from `courtCoordinates.ts`: converts court
coordinates (feet) to screen coordinates by per-axis linear scaling. -/
def courtToScreenCoordinates (courtPos : CourtPosition) (dimensions : CourtDimensions) :
    Position :=
  let scaleX := dimensions.width / dimensions.courtLengthFeet
  let scaleY := dimensions.height / dimensions.courtWidthFeet
  ⟨courtPos.x * scaleX, courtPos.y * scaleY⟩

/-- `isWithinCourtBounds` from `courtCoordinates.ts`. -/
def isWithinCourtBounds (courtPos : CourtPosition) (dimensions : CourtDimensions) :
    Bool :=
  decide (0 ≤ courtPos.x) && decide (courtPos.x ≤ dimensions.courtLengthFeet) &&
  decide (0 ≤ courtPos.y) && decide (courtPos.y ≤ dimensions.courtWidthFeet)

/-- The basket-side argument of `distanceFromBasket` / `angleToBasket`. -/
inductive BasketSide
  | left
  | right
deriving DecidableEq

/-- `distanceFromBasket` from `courtCoordinates.ts`: Euclidean distance from
the basket anchor (left `(10, 25)`, right `(84, 25)`). -/
noncomputable def distanceFromBasket (courtPos : CourtPosition) (basketSide : BasketSide) :
    ℝ :=
  let basketX : ℚ := if basketSide = BasketSide.left then 10 else 84
  let basketY : ℚ := 25
  let dx := courtPos.x - basketX
  let dy := courtPos.y - basketY
  Real.sqrt ((dx * dx + dy * dy : ℚ) : ℝ)

/-- `angleToBasket` from `courtCoordinates.ts`: `Math.atan2(dy, dx)` (embedded
as the argument of the complex number `dx + dy·i`) converted to degrees. -/
noncomputable def angleToBasket (courtPos : CourtPosition) (basketSide : BasketSide) :
    ℝ :=
  let basketX : ℚ := if basketSide = BasketSide.left then 10 else 84
  let basketY : ℚ := 25
  let dx := ((basketX - courtPos.x : ℚ) : ℝ)
  let dy := ((basketY - courtPos.y : ℚ) : ℝ)
  Complex.arg ⟨dx, dy⟩ * (180 / Real.pi)

/-- `getShotZone` from `courtCoordinates.ts`: zone label from distance to the
right basket. -/
noncomputable def getShotZone (courtPos : CourtPosition) : String :=
  let distanceToBasket := distanceFromBasket courtPos BasketSide.right
  if distanceToBasket ≤ 8 then "Restricted Area"
  else if distanceToBasket ≤ 16 then "Paint"
  else if distanceToBasket ≤ 23.75 then "Mid-range"
  else "Three-point"

/-- `DEFAULT_COURT_DIMENSIONS` from `courtCoordinates.ts`. -/
def DEFAULT_COURT_DIMENSIONS : CourtDimensions := ⟨800, 400, 94, 50⟩

/-- Shot distance computed inline in `handleCourtClick` (`ShotPredictor.tsx`):
`sqrt(((x − 0)/10)² + ((y − 80)/10)²)` over the analytics position. -/
noncomputable def shotDistance (courtPos : CourtPosition) : ℝ :=
  let basketX : ℚ := 0
  let basketY : ℚ := 80
  Real.sqrt ((((courtPos.x - basketX : ℚ) : ℝ) / 10) ^ 2 +
    (((courtPos.y - basketY : ℚ) : ℝ) / 10) ^ 2)

/-- Zone classifier of `handleCourtClick` (`ShotPredictor.tsx`): `shotZone`
starts as Mid-Range and is overwritten by the threshold ladder. -/
noncomputable def clickShotZone (courtPos : CourtPosition) : String :=
  let distance := shotDistance courtPos
  if distance ≤ 4 then "Restricted Area"
  else if distance ≤ 8 then "In The Paint (Non-RA)"
  else if 23.75 < distance then
    if 200 < |courtPos.x| ∧ courtPos.y < 150 then
      if 0 < courtPos.x then "Right Corner 3" else "Left Corner 3"
    else "Above the Break 3"
  else "Mid-Range"

/-- Shot type sent to the prediction collaborator (`ShotPredictor.tsx`):
`distance > 23.75 ? 3 : 2`, rendered as the `SHOT_TYPE` string. -/
noncomputable def clickShotType (courtPos : CourtPosition) : String :=
  if 23.75 < shotDistance courtPos then "3PT Field Goal" else "2PT Field Goal"

/-- A weighted heatmap point (`Heatmap.tsx`, type `HeatmapPoint`). -/
structure HeatmapPoint where
  x : ℚ
  y : ℚ
  weight : Option ℚ

/-- Interpretation of incoming heatmap points (`Heatmap.tsx`, the
`coordinateSpace` prop). -/
inductive CoordinateSpace
  | screen
  | court
deriving DecidableEq

/-- The configuration of the heatmap renderer (`Heatmap.tsx`, interface
`HeatmapProps`), with the component's prop defaults already substituted. -/
structure HeatmapProps where
  width : ℚ
  height : ℚ
  data : List HeatmapPoint
  radius : ℚ
  maxOpacity : ℚ
  leagueAverage : Option ℚ
  leagueBand : Option ℚ
  coordinateSpace : CoordinateSpace
  courtDimensions : Option CourtDimensions

/-- Effective league-average baseline: `leagueAverage ?? 0.45` (`Heatmap.tsx`). -/
def heatmapAvg (leagueAverage : Option ℚ) : ℚ := leagueAverage.getD 0.45

/-- Effective tolerance band:
`Math.max(0.05, Math.min(0.4, leagueBand ?? 0.2))` (`Heatmap.tsx`). -/
def heatmapBand (leagueBand : Option ℚ) : ℚ :=
  max 0.05 (min 0.4 (leagueBand.getD 0.2))

/-- Models `d3.scaleSequential(d3.interpolateRdYlGn).domain([d0, d1]).clamp(true)`
as the normalized interpolator parameter for input `x`, clamped to `[0, 1]`.
The rendered color is the fixed RdYlGn interpolator applied to this parameter,
so equal parameters yield identical colors. -/
def colorScalePos (d0 d1 x : ℚ) : ℚ := max 0 (min 1 ((x - d0) / (d1 - d0)))

/-- Models `d3.scaleLinear().domain([0, band]).range([0.18, maxOpacity]).clamp(true)`
(`Heatmap.tsx`, `emphasisScale`), applied to `delta = |weight − avg|`. -/
def emphasisScale (band maxOpacity delta : ℚ) : ℚ :=
  0.18 + max 0 (min 1 (delta / band)) * (maxOpacity - 0.18)

/-- One radial-gradient draw call of the heatmap draw effect. -/
structure Splat where
  px : ℚ
  py : ℚ
  r : ℚ
  colorPos : ℚ
  alpha : ℚ

/-- The radial-gradient splats the heatmap draw effect performs after clearing
the surface (`Heatmap.tsx`, the loop over `data`), at logical CSS-pixel scale:
one splat per point, with the court-feet conversion applied against the drawing
surface size when `coordinateSpace` is `court`. -/
def heatmapDrawCalls (props : HeatmapProps) : List Splat :=
  let avg := heatmapAvg props.leagueAverage
  let band := heatmapBand props.leagueBand
  props.data.map (fun p =>
    let prob := p.weight.getD avg
    let pos : Position :=
      match props.coordinateSpace with
      | CoordinateSpace.screen => ⟨p.x, p.y⟩
      | CoordinateSpace.court =>
        let dims := props.courtDimensions.getD DEFAULT_COURT_DIMENSIONS
        courtToScreenCoordinates ⟨p.x, p.y⟩
          ⟨props.width, props.height, dims.courtLengthFeet, dims.courtWidthFeet⟩
    let t := colorScalePos (avg - band) (avg + band) prob
    let delta := |prob - avg|
    let alpha := emphasisScale band props.maxOpacity delta
    let radiusFactor := 0.9 + 1.2 * (delta / band)
    let r := max 8 (props.radius * radiusFactor)
    ⟨pos.x, pos.y, r, t, alpha⟩)

/-- Additively composited alpha at a pixel for any per-splat contribution
profile: models the `lighter` compositing of the radial gradients. -/
def compositedAlpha (contrib : Splat → ℚ × ℚ → ℚ) (splats : List Splat)
    (q : ℚ × ℚ) : ℚ :=
  (splats.map (fun s => contrib s q)).sum

/-- Helper: evaluate a concrete real square root. -/
theorem real_sqrt_eq (a b : ℝ) (hb : 0 ≤ b) (h : a = b ^ 2) : Real.sqrt a = b := by
  rw [h]
  exact Real.sqrt_sq hb

/-- C1: `screenToCourtCoordinates` returns
`{x: round((y/height − 0.5)·500), y: round(50 + (x/width)·350)}` for every
dimensions record with positive width and height, and in particular maps the
pixel `(250, 235)` on a `500×470` surface to the analytics position `(0, 225)`. -/
theorem c1_screenToCourt_formula (p : Position) (d : CourtDimensions)
    (hw : 0 < d.width) (hh : 0 < d.height) :
    screenToCourtCoordinates p d =
      ⟨jsRound ((p.y / d.height - 0.5) * 500), jsRound (50 + p.x / d.width * 350)⟩ ∧
    screenToCourtCoordinates ⟨250, 235⟩ ⟨500, 470, 47, 50⟩ = ⟨0, 225⟩ := by
  constructor
  · rfl
  · show (⟨jsRound ((235 / 470 - 0.5) * 500), jsRound (50 + 250 / 500 * 350)⟩ :
      CourtPosition) = ⟨0, 225⟩
    norm_num [jsRound]

/-- Witness for C1 at the concrete click of the end-to-end scenario. -/
theorem c1_screenToCourt_formula_witness :
    screenToCourtCoordinates ⟨250, 235⟩ ⟨500, 470, 47, 50⟩ =
      ⟨jsRound ((235 / 470 - 0.5) * 500), jsRound (50 + 250 / 500 * 350)⟩ ∧
    screenToCourtCoordinates ⟨250, 235⟩ ⟨500, 470, 47, 50⟩ = ⟨0, 225⟩ :=
  c1_screenToCourt_formula ⟨250, 235⟩ ⟨500, 470, 47, 50⟩ (by norm_num) (by norm_num)

/-- C2: `courtToScreenCoordinates` is not the inverse of
`screenToCourtCoordinates`: the round trip at pixel `(250, 235)` on a `500×470`
surface with `courtLengthFeet = 47, courtWidthFeet = 50` does not reproduce the
original pixel. -/
theorem c2_roundtrip_not_inverse :
    courtToScreenCoordinates
        (screenToCourtCoordinates ⟨250, 235⟩ ⟨500, 470, 47, 50⟩)
        ⟨500, 470, 47, 50⟩ ≠ (⟨250, 235⟩ : Position) := by
  intro h
  have h1 : screenToCourtCoordinates ⟨250, 235⟩ ⟨500, 470, 47, 50⟩ =
      (⟨0, 225⟩ : CourtPosition) := by
    show (⟨jsRound ((235 / 470 - 0.5) * 500), jsRound (50 + 250 / 500 * 350)⟩ :
      CourtPosition) = ⟨0, 225⟩
    norm_num [jsRound]
  rw [h1] at h
  simp only [courtToScreenCoordinates, Position.mk.injEq] at h
  norm_num at h

/-- C3: `getShotZone` is determined solely by the Euclidean distance from the
right-basket anchor `(84, 25)`: Restricted Area iff `d ≤ 8`, Paint iff
`8 < d ≤ 16`, Mid-range iff `16 < d ≤ 23.75`, Three-point iff `d > 23.75`;
distance exactly 8 gives Restricted Area and exactly 23.75 gives Mid-range. -/
theorem c3_getShotZone_thresholds (p : CourtPosition) :
    (getShotZone p = "Restricted Area" ↔ distanceFromBasket p BasketSide.right ≤ 8) ∧
    (getShotZone p = "Paint" ↔
      8 < distanceFromBasket p BasketSide.right ∧
      distanceFromBasket p BasketSide.right ≤ 16) ∧
    (getShotZone p = "Mid-range" ↔
      16 < distanceFromBasket p BasketSide.right ∧
      distanceFromBasket p BasketSide.right ≤ 23.75) ∧
    (getShotZone p = "Three-point" ↔ 23.75 < distanceFromBasket p BasketSide.right) ∧
    distanceFromBasket ⟨84, 33⟩ BasketSide.right = 8 ∧
    getShotZone ⟨84, 33⟩ = "Restricted Area" ∧
    distanceFromBasket ⟨431/4, 25⟩ BasketSide.right = 23.75 ∧
    getShotZone ⟨431/4, 25⟩ = "Mid-range" := by
  have hd8 : distanceFromBasket ⟨84, 33⟩ BasketSide.right = 8 := by
    rw [show distanceFromBasket ⟨84, 33⟩ BasketSide.right =
      Real.sqrt ((((84 : ℚ) - 84) * ((84 : ℚ) - 84) +
        ((33 : ℚ) - 25) * ((33 : ℚ) - 25) : ℚ) : ℝ) from rfl]
    exact real_sqrt_eq _ 8 (by norm_num) (by push_cast; norm_num)
  have hd2375 : distanceFromBasket ⟨431/4, 25⟩ BasketSide.right = 23.75 := by
    rw [show distanceFromBasket ⟨431/4, 25⟩ BasketSide.right =
      Real.sqrt ((((431/4 : ℚ) - 84) * ((431/4 : ℚ) - 84) +
        ((25 : ℚ) - 25) * ((25 : ℚ) - 25) : ℚ) : ℝ) from rfl]
    exact real_sqrt_eq _ 23.75 (by norm_num) (by push_cast; norm_num)
  have main : ∀ q : CourtPosition,
      (getShotZone q = "Restricted Area" ↔ distanceFromBasket q BasketSide.right ≤ 8) ∧
      (getShotZone q = "Paint" ↔
        8 < distanceFromBasket q BasketSide.right ∧
        distanceFromBasket q BasketSide.right ≤ 16) ∧
      (getShotZone q = "Mid-range" ↔
        16 < distanceFromBasket q BasketSide.right ∧
        distanceFromBasket q BasketSide.right ≤ 23.75) ∧
      (getShotZone q = "Three-point" ↔ 23.75 < distanceFromBasket q BasketSide.right) := by
    intro q
    simp only [getShotZone]
    set dq := distanceFromBasket q BasketSide.right with hdq
    split_ifs with h1 h2 h3
    · refine ⟨iff_of_true rfl h1, iff_of_false (by decide) ?_,
        iff_of_false (by decide) ?_, iff_of_false (by decide) ?_⟩
      · rintro ⟨a, b⟩; linarith
      · rintro ⟨a, b⟩; linarith
      · intro a; linarith
    · push_neg at h1
      refine ⟨iff_of_false (by decide) ?_, iff_of_true rfl ⟨h1, h2⟩,
        iff_of_false (by decide) ?_, iff_of_false (by decide) ?_⟩
      · intro a; linarith
      · rintro ⟨a, b⟩; linarith
      · intro a; linarith
    · push_neg at h1 h2
      refine ⟨iff_of_false (by decide) ?_, iff_of_false (by decide) ?_,
        iff_of_true rfl ⟨h2, h3⟩, iff_of_false (by decide) ?_⟩
      · intro a; linarith
      · rintro ⟨a, b⟩; linarith
      · intro a; linarith
    · push_neg at h1 h2 h3
      refine ⟨iff_of_false (by decide) ?_, iff_of_false (by decide) ?_,
        iff_of_false (by decide) ?_, iff_of_true rfl h3⟩
      · intro a; linarith
      · rintro ⟨a, b⟩; linarith
      · rintro ⟨a, b⟩; linarith
  exact ⟨(main p).1, (main p).2.1, (main p).2.2.1, (main p).2.2.2,
    hd8, (main ⟨84, 33⟩).1.mpr (le_of_eq hd8),
    hd2375, (main ⟨431/4, 25⟩).2.2.1.mpr ⟨by rw [hd2375]; norm_num, le_of_eq hd2375⟩⟩

/-- C4: the click-handling boundary classifier over the analytics position,
with `d = sqrt((x/10)² + ((y−80)/10)²)`: Restricted Area if `d ≤ 4`,
In The Paint (Non-RA) if `4 < d ≤ 8`, corner three when `d > 23.75` with
`|x| > 200` and `y < 150` (Right if `x > 0`, else Left), Above the Break 3 for
the other `d > 23.75` positions, Mid-Range for everything remaining; the shot
type is `3PT Field Goal` iff `d > 23.75`. -/
theorem c4_click_zone_classifier (p : CourtPosition) :
    (shotDistance p ≤ 4 → clickShotZone p = "Restricted Area") ∧
    (4 < shotDistance p → shotDistance p ≤ 8 →
      clickShotZone p = "In The Paint (Non-RA)") ∧
    (23.75 < shotDistance p → 200 < |p.x| → p.y < 150 → 0 < p.x →
      clickShotZone p = "Right Corner 3") ∧
    (23.75 < shotDistance p → 200 < |p.x| → p.y < 150 → p.x ≤ 0 →
      clickShotZone p = "Left Corner 3") ∧
    (23.75 < shotDistance p → ¬(200 < |p.x| ∧ p.y < 150) →
      clickShotZone p = "Above the Break 3") ∧
    (8 < shotDistance p → shotDistance p ≤ 23.75 → clickShotZone p = "Mid-Range") ∧
    (clickShotType p = "3PT Field Goal" ↔ 23.75 < shotDistance p) ∧
    (clickShotType p = "2PT Field Goal" ↔ shotDistance p ≤ 23.75) := by
  simp only [clickShotZone, clickShotType]
  set dp := shotDistance p with hdp
  refine ⟨?_, ?_, ?_, ?_, ?_, ?_, ?_, ?_⟩
  · intro h1
    split_ifs <;> first | rfl | (exfalso; first | linarith | tauto)
  · intro h1 h2
    split_ifs <;> first | rfl | (exfalso; first | linarith | tauto)
  · intro h1 h2 h3 h4
    split_ifs <;> first | rfl | (exfalso; first | linarith | tauto)
  · intro h1 h2 h3 h4
    split_ifs <;> first | rfl | (exfalso; first | linarith | tauto)
  · intro h1 h2
    split_ifs <;> first | rfl | (exfalso; first | linarith | tauto)
  · intro h1 h2
    split_ifs <;> first | rfl | (exfalso; first | linarith | tauto)
  · split_ifs with h
    · exact iff_of_true rfl h
    · exact iff_of_false (by decide) h
  · split_ifs with h
    · exact iff_of_false (by decide) (not_le.mpr h)
    · exact iff_of_true rfl (not_lt.mp h)

/-- Witness for C4: the click at analytics position `(0, 50)` has distance 3
from the click handler's basket anchor and is classified Restricted Area. -/
theorem c4_click_zone_classifier_witness :
    shotDistance ⟨0, 50⟩ ≤ 4 ∧ clickShotZone ⟨0, 50⟩ = "Restricted Area" := by
  have hsd : shotDistance ⟨0, 50⟩ = 3 := by
    rw [show shotDistance ⟨0, 50⟩ =
      Real.sqrt (((((0 : ℚ) - 0 : ℚ) : ℝ) / 10) ^ 2 +
        ((((50 : ℚ) - 80 : ℚ) : ℝ) / 10) ^ 2) from rfl]
    exact real_sqrt_eq _ 3 (by norm_num) (by push_cast; norm_num)
  have h4 : shotDistance ⟨0, 50⟩ ≤ 4 := by rw [hsd]; norm_num
  exact ⟨h4, (c4_click_zone_classifier ⟨0, 50⟩).1 h4⟩

/-- C5: `isWithinCourtBounds` is true iff both coordinates lie within
`[0, extentFeet]` inclusive; it accepts `(0, 0)` and
`(courtLengthFeet, courtWidthFeet)` and rejects any position with a negative
component or a component exceeding its extent. -/
theorem c5_isWithinCourtBounds_iff (p : CourtPosition) (d : CourtDimensions) :
    (isWithinCourtBounds p d = true ↔
      0 ≤ p.x ∧ p.x ≤ d.courtLengthFeet ∧ 0 ≤ p.y ∧ p.y ≤ d.courtWidthFeet) ∧
    (0 ≤ d.courtLengthFeet → 0 ≤ d.courtWidthFeet →
      isWithinCourtBounds ⟨0, 0⟩ d = true ∧
      isWithinCourtBounds ⟨d.courtLengthFeet, d.courtWidthFeet⟩ d = true) ∧
    ((p.x < 0 ∨ d.courtLengthFeet < p.x ∨ p.y < 0 ∨ d.courtWidthFeet < p.y) →
      isWithinCourtBounds p d = false) := by
  have hiff : ∀ q : CourtPosition,
      isWithinCourtBounds q d = true ↔
        0 ≤ q.x ∧ q.x ≤ d.courtLengthFeet ∧ 0 ≤ q.y ∧ q.y ≤ d.courtWidthFeet := by
    intro q
    simp [isWithinCourtBounds, and_assoc]
  refine ⟨hiff p, ?_, ?_⟩
  · intro h1 h2
    exact ⟨(hiff ⟨0, 0⟩).mpr ⟨le_refl 0, h1, le_refl 0, h2⟩,
      (hiff ⟨d.courtLengthFeet, d.courtWidthFeet⟩).mpr ⟨h1, le_refl _, h2, le_refl _⟩⟩
  · intro hbad
    cases hb : isWithinCourtBounds p d with
    | false => rfl
    | true =>
      exfalso
      obtain ⟨a, b, c, e⟩ := (hiff p).mp hb
      rcases hbad with h | h | h | h <;> linarith

/-- Witness for C5 on the default 94×50 court. -/
theorem c5_isWithinCourtBounds_iff_witness :
    isWithinCourtBounds ⟨0, 0⟩ ⟨800, 400, 94, 50⟩ = true ∧
    isWithinCourtBounds ⟨94, 50⟩ ⟨800, 400, 94, 50⟩ = true ∧
    isWithinCourtBounds ⟨-1, 0⟩ ⟨800, 400, 94, 50⟩ = false := by
  have h := c5_isWithinCourtBounds_iff ⟨-1, 0⟩ ⟨800, 400, 94, 50⟩
  have hb := h.2.1 (by norm_num) (by norm_num)
  exact ⟨hb.1, hb.2, h.2.2 (Or.inl (by norm_num))⟩

/-- C6: `courtToScreenCoordinates` is linear and origin-anchored in each axis
independently, with per-axis scale factors `width / courtLengthFeet` and
`height / courtWidthFeet`. -/
theorem c6_courtToScreen_linear (p : CourtPosition) (d : CourtDimensions) (k : ℚ)
    (hw : 0 < d.width) (hh : 0 < d.height) :
    courtToScreenCoordinates ⟨k * p.x, k * p.y⟩ d =
      ⟨k * (courtToScreenCoordinates p d).x, k * (courtToScreenCoordinates p d).y⟩ ∧
    (courtToScreenCoordinates p d).x = p.x * (d.width / d.courtLengthFeet) ∧
    (courtToScreenCoordinates p d).y = p.y * (d.height / d.courtWidthFeet) := by
  refine ⟨?_, rfl, rfl⟩
  simp only [courtToScreenCoordinates, Position.mk.injEq]
  constructor <;> ring

/-- Witness for C6 with `k = 2` at court position `(3, 4)`. -/
theorem c6_courtToScreen_linear_witness :
    courtToScreenCoordinates ⟨2 * 3, 2 * 4⟩ ⟨800, 400, 94, 50⟩ =
      ⟨2 * (courtToScreenCoordinates ⟨3, 4⟩ ⟨800, 400, 94, 50⟩).x,
        2 * (courtToScreenCoordinates ⟨3, 4⟩ ⟨800, 400, 94, 50⟩).y⟩ ∧
    (courtToScreenCoordinates ⟨3, 4⟩ ⟨800, 400, 94, 50⟩).x = 3 * (800 / 94) ∧
    (courtToScreenCoordinates ⟨3, 4⟩ ⟨800, 400, 94, 50⟩).y = 4 * (400 / 50) :=
  c6_courtToScreen_linear ⟨3, 4⟩ ⟨800, 400, 94, 50⟩ 2 (by norm_num) (by norm_num)

/-- C10: `screenToCourtCoordinates` does not depend on the `courtLengthFeet`
and `courtWidthFeet` fields of its dimensions argument: two dimensions records
agreeing on `width` and `height` produce identical analytics positions. -/
theorem c10_screenToCourt_ignores_feet (p : Position) (d1 d2 : CourtDimensions)
    (hw : d1.width = d2.width) (hh : d1.height = d2.height) :
    screenToCourtCoordinates p d1 = screenToCourtCoordinates p d2 := by
  simp only [screenToCourtCoordinates, hw, hh]

/-- Witness for C10: the half-court and full-court feet configurations give the
same analytics position for the same click. -/
theorem c10_screenToCourt_ignores_feet_witness :
    screenToCourtCoordinates ⟨250, 235⟩ ⟨500, 470, 47, 50⟩ =
      screenToCourtCoordinates ⟨250, 235⟩ ⟨500, 470, 94, 50⟩ :=
  c10_screenToCourt_ignores_feet ⟨250, 235⟩ ⟨500, 470, 47, 50⟩ ⟨500, 470, 94, 50⟩ rfl rfl

/-- C7: the effective tolerance band is `leagueBand` clamped to `[0.05, 0.4]`
(default 0.2 when absent); the color scale's parameter and the alpha map
saturate at the band edges — two weights at or above `avg + band` get the same
color-scale parameter and both get alpha `maxOpacity` — and a weight equal to
the league average sits at the scale's domain midpoint (parameter `1/2`) and
gets the minimum alpha `0.18`. -/
theorem c7_heatmap_band_saturation (lb : Option ℚ) (b avg maxOp w1 w2 : ℚ)
    (h1 : avg + heatmapBand lb ≤ w1) (h2 : avg + heatmapBand lb ≤ w2) :
    0.05 ≤ heatmapBand lb ∧ heatmapBand lb ≤ 0.4 ∧
    (0.05 ≤ b → b ≤ 0.4 → heatmapBand (some b) = b) ∧
    heatmapBand none = 0.2 ∧
    colorScalePos (avg - heatmapBand lb) (avg + heatmapBand lb) w1 =
      colorScalePos (avg - heatmapBand lb) (avg + heatmapBand lb) w2 ∧
    emphasisScale (heatmapBand lb) maxOp |w1 - avg| = maxOp ∧
    emphasisScale (heatmapBand lb) maxOp |w2 - avg| = maxOp ∧
    colorScalePos (avg - heatmapBand lb) (avg + heatmapBand lb) avg = 1/2 ∧
    emphasisScale (heatmapBand lb) maxOp |avg - avg| = 0.18 := by
  have hb05 : (0.05 : ℚ) ≤ heatmapBand lb := by
    simp only [heatmapBand]
    exact le_max_left _ _
  have hb04 : heatmapBand lb ≤ 0.4 := by
    simp only [heatmapBand]
    exact max_le (by norm_num) (min_le_left _ _)
  have hbpos : (0 : ℚ) < heatmapBand lb := lt_of_lt_of_le (by norm_num) hb05
  have hsat : ∀ w, avg + heatmapBand lb ≤ w →
      colorScalePos (avg - heatmapBand lb) (avg + heatmapBand lb) w = 1 := by
    intro w hw
    simp only [colorScalePos]
    rw [show (avg + heatmapBand lb) - (avg - heatmapBand lb) = 2 * heatmapBand lb
      from by ring]
    have h1le : (1 : ℚ) ≤ (w - (avg - heatmapBand lb)) / (2 * heatmapBand lb) := by
      rw [le_div_iff (by positivity)]
      linarith
    rw [min_eq_left h1le, max_eq_right (by norm_num : (0 : ℚ) ≤ 1)]
  have halpha : ∀ w, avg + heatmapBand lb ≤ w →
      emphasisScale (heatmapBand lb) maxOp |w - avg| = maxOp := by
    intro w hw
    simp only [emphasisScale]
    have habs : |w - avg| = w - avg := abs_of_nonneg (by linarith)
    have h1le : (1 : ℚ) ≤ |w - avg| / heatmapBand lb := by
      rw [habs, le_div_iff hbpos]
      linarith
    rw [min_eq_left h1le, max_eq_right (by norm_num : (0 : ℚ) ≤ 1)]
    ring
  have hmid : colorScalePos (avg - heatmapBand lb) (avg + heatmapBand lb) avg
      = 1/2 := by
    simp only [colorScalePos]
    rw [show avg - (avg - heatmapBand lb) = heatmapBand lb from by ring,
      show (avg + heatmapBand lb) - (avg - heatmapBand lb) = 2 * heatmapBand lb
        from by ring]
    rw [show heatmapBand lb / (2 * heatmapBand lb) = 1/2 from by
      rw [div_eq_iff (by positivity)]; ring]
    rw [min_eq_right (by norm_num : (1 : ℚ)/2 ≤ 1),
      max_eq_right (by norm_num : (0 : ℚ) ≤ 1/2)]
  have hmin : emphasisScale (heatmapBand lb) maxOp |avg - avg| = 0.18 := by
    simp only [emphasisScale, sub_self, abs_zero, zero_div]
    rw [min_eq_right (by norm_num : (0 : ℚ) ≤ 1),
      max_eq_right (le_refl (0 : ℚ))]
    ring
  refine ⟨hb05, hb04, ?_, ?_, ?_, halpha w1 h1, halpha w2 h2, hmid, hmin⟩
  · intro hlo hhi
    simp only [heatmapBand, Option.getD_some]
    rw [min_eq_right hhi, max_eq_right hlo]
  · simp only [heatmapBand, Option.getD_none]
    norm_num
  · rw [hsat w1 h1, hsat w2 h2]

/-- Witness for C7 with the application's own configuration
(`leagueAverage = 0.45`, `leagueBand = 0.2`, `maxOpacity = 0.9`). -/
theorem c7_heatmap_band_saturation_witness :
    colorScalePos (0.45 - heatmapBand (some 0.2)) (0.45 + heatmapBand (some 0.2)) 0.65 =
      colorScalePos (0.45 - heatmapBand (some 0.2)) (0.45 + heatmapBand (some 0.2)) 0.85 ∧
    emphasisScale (heatmapBand (some 0.2)) 0.9 |0.65 - 0.45| = 0.9 ∧
    heatmapBand none = 0.2 := by
  have h := c7_heatmap_band_saturation (some 0.2) 0.3 0.45 0.9 0.65 0.85
    (by simp only [heatmapBand, Option.getD_some]; norm_num)
    (by simp only [heatmapBand, Option.getD_some]; norm_num)
  exact ⟨h.2.2.2.2.1, h.2.2.2.2.2.1, h.2.2.2.1⟩

/-- C8: rendering the heatmap with an empty point list performs no draw call
beyond the clear, so the composited surface is fully transparent: the
accumulated alpha at every pixel is zero for every contribution profile. -/
theorem c8_empty_heatmap_transparent (w h r mo : ℚ) (la lb : Option ℚ)
    (cs : CoordinateSpace) (cd : Option CourtDimensions) :
    heatmapDrawCalls ⟨w, h, [], r, mo, la, lb, cs, cd⟩ = [] ∧
    ∀ (contrib : Splat → ℚ × ℚ → ℚ) (q : ℚ × ℚ),
      compositedAlpha contrib (heatmapDrawCalls ⟨w, h, [], r, mo, la, lb, cs, cd⟩) q
        = 0 := by
  exact ⟨rfl, fun contrib q => rfl⟩

/-- C9: every public operation of the coordinate mapper and the heatmap draw
pass is total over finite numeric inputs: the analytics position is a pair of
integers, the screen conversion returns a value, the bounds check is a boolean,
the distance is nonnegative, the angle lies in `(−180, 180]`, the zone label
comes from its closed set, and the draw pass emits exactly one splat of radius
at least 8 per point of any (possibly empty) point list. -/
theorem c9_operations_total (p : Position) (cp : CourtPosition)
    (d : CourtDimensions) (side : BasketSide) (props : HeatmapProps) :
    (∃ nx ny : ℤ, screenToCourtCoordinates p d = ⟨(nx : ℚ), (ny : ℚ)⟩) ∧
    (∃ q : Position, courtToScreenCoordinates cp d = q) ∧
    (isWithinCourtBounds cp d = true ∨ isWithinCourtBounds cp d = false) ∧
    0 ≤ distanceFromBasket cp side ∧
    (-180 < angleToBasket cp side ∧ angleToBasket cp side ≤ 180) ∧
    (getShotZone cp = "Restricted Area" ∨ getShotZone cp = "Paint" ∨
      getShotZone cp = "Mid-range" ∨ getShotZone cp = "Three-point") ∧
    (heatmapDrawCalls props).length = props.data.length ∧
    (∀ s ∈ heatmapDrawCalls props, (8 : ℚ) ≤ s.r) := by
  have hang : ∀ z : ℂ, -180 < Complex.arg z * (180 / Real.pi) ∧
      Complex.arg z * (180 / Real.pi) ≤ 180 := by
    intro z
    have hπ : 0 < Real.pi := Real.pi_pos
    have ha1 : Complex.arg z ≤ Real.pi := Complex.arg_le_pi z
    have ha2 : -Real.pi < Complex.arg z := Complex.neg_pi_lt_arg z
    have hpos : 0 < 180 / Real.pi := by positivity
    have he : Real.pi * (180 / Real.pi) = 180 := by
      field_simp
    constructor
    · have hlt : (-Real.pi) * (180 / Real.pi) < Complex.arg z * (180 / Real.pi) :=
        mul_lt_mul_of_pos_right ha2 hpos
      have he2 : (-Real.pi) * (180 / Real.pi) = -180 := by
        rw [neg_mul, he]
      linarith
    · exact le_trans (mul_le_mul_of_nonneg_right ha1 hpos.le) (le_of_eq he)
  refine ⟨⟨⌊(p.y / d.height - 0.5) * 500 + 1/2⌋,
      ⌊50 + p.x / d.width * 350 + 1/2⌋, rfl⟩,
    ⟨courtToScreenCoordinates cp d, rfl⟩, ?_, Real.sqrt_nonneg _,
    ⟨(hang _).1, (hang _).2⟩, ?_, ?_, ?_⟩
  · cases hb : isWithinCourtBounds cp d with
    | false => exact Or.inr rfl
    | true => exact Or.inl rfl
  · simp only [getShotZone]
    split_ifs <;>
      first
        | exact Or.inl rfl
        | exact Or.inr (Or.inl rfl)
        | exact Or.inr (Or.inr (Or.inl rfl))
        | exact Or.inr (Or.inr (Or.inr rfl))
  · simp only [heatmapDrawCalls]
    simp
  · intro s hs
    simp only [heatmapDrawCalls, List.mem_map] at hs
    obtain ⟨pt, hpt, rfl⟩ := hs
    exact le_max_left _ _
